import Mathlib

/-!
# Verification of `xbmc/pvr/PVRSettings.cpp`

A shallow embedding of the PVR settings cache (`CPVRSettings`): a mutex-guarded
mapping from setting identifiers to cloned setting snapshots, kept in sync with
an external settings registry via bulk-reload and single-setting-changed
callbacks, together with the two free-standing UI callbacks
(`MarginTimeFiller`, `IsSettingVisible`).

The mapping `m_settings : std::map<std::string, SettingPtr>` is embedded as an
association list with `std::map` lookup/insert/assign semantics.  The external
settings registry (`CServiceBroker::GetSettings().GetSetting`) is a function
`String → Option CSetting`; locking is elided (every operation is atomic in the
embedding).  Machine `int` values are embedded as `Int`.
-/

namespace PVRSettings

/-- The value stored inside a setting: the code distinguishes exactly the three
kinds `CSettingBool` / `CSettingInt` / `CSettingString` via
`GetType()` plus `dynamic_pointer_cast`; a sum type makes the cast total. -/
inductive SettingValue where
  | boolean : Bool → SettingValue
  | integer : Int → SettingValue
  | string : String → SettingValue
deriving DecidableEq, Repr

/-- The declared kind of a setting, `SettingType` in the C++ settings library
(restricted to the three kinds this file dispatches on). -/
inductive SettingType where
  | Boolean : SettingType
  | Integer : SettingType
  | String : SettingType
deriving DecidableEq, Repr

/-- A setting object (`CSetting`): an identifier plus a typed value. -/
structure CSetting where
  id : String
  value : SettingValue
deriving DecidableEq, Repr

/-- `CSetting::GetId()`. -/
def CSetting.GetId (s : CSetting) : String := s.id

/-- `CSetting::GetType()`: the declared kind of the stored value. -/
def CSetting.GetType (s : CSetting) : SettingType :=
  match s.value with
  | SettingValue.boolean _ => SettingType.Boolean
  | SettingValue.integer _ => SettingType.Integer
  | SettingValue.string _ => SettingType.String

/-- `CSetting::Clone(id)`: an owned copy of the setting carrying the given
identifier and the same value. -/
def CSetting.Clone (s : CSetting) (newId : String) : CSetting :=
  { id := newId, value := s.value }

/-- The cache mapping `m_settings`, embedded as an association list keyed by
setting identifier. -/
abbrev Cache : Type := List (String × CSetting)

/-- The external settings registry as seen through
`CServiceBroker::GetSettings().GetSetting(name)`. -/
abbrev Registry : Type := String → Option CSetting

/-- `std::map::find`: the value stored under `key`, if any. -/
def mapFind (cache : Cache) (key : String) : Option CSetting :=
  match cache with
  | [] => none
  | (k, w) :: rest => if k = key then some w else mapFind rest key

/-- `std::map::insert`: insert `(key, v)` only when `key` is absent; an
existing entry under `key` is kept unchanged. -/
def mapInsert (cache : Cache) (key : String) (v : CSetting) : Cache :=
  match cache with
  | [] => [(key, v)]
  | (k, w) :: rest =>
      if k = key then (k, w) :: rest else (k, w) :: mapInsert rest key v

/-- `std::map::operator[]` followed by assignment: overwrite the entry under
`key` when present, insert it otherwise. -/
def mapSet (cache : Cache) (key : String) (v : CSetting) : Cache :=
  match cache with
  | [] => [(key, v)]
  | (k, w) :: rest =>
      if k = key then (k, v) :: rest else (k, w) :: mapSet rest key v

/-- The loop body of `CPVRSettings::Init`, threading the cache and the list of
identifiers logged as unknown: for each name, look the setting up in the
registry; on failure log the name and skip it, on success insert a clone of
the setting under that name. -/
def InitAux : List String → Registry → Cache → List String → Cache × List String
  | [], _, cache, logged => (cache, logged)
  | settingName :: rest, registry, cache, logged =>
      match registry settingName with
      | none => InitAux rest registry cache (logged ++ [settingName])
      | some setting =>
          InitAux rest registry
            (mapInsert cache settingName (setting.Clone settingName)) logged

/-- `CPVRSettings::Init(settingNames)`: the resulting cache contents. -/
def Init (cache : Cache) (settingNames : List String) (registry : Registry) :
    Cache :=
  (InitAux settingNames registry cache []).1

/-- The identifiers logged as `Unknown PVR setting` by `Init` when run on an
empty cache (the constructor path). -/
def initLogged (settingNames : List String) (registry : Registry) :
    List String :=
  (InitAux settingNames registry [] []).2

/-- `CPVRSettings::CPVRSettings(settingNames)`: the cache starts empty and is
filled by `Init` (the registration calls carry no cache state). -/
def construct (settingNames : List String) (registry : Registry) : Cache :=
  Init [] settingNames registry

/-- The key-collection loop of `CPVRSettings::OnSettingsLoaded`: the set of
identifiers currently present in the mapping. -/
def collectSettingNames (cache : Cache) : List String :=
  cache.map Prod.fst

/-- `CPVRSettings::OnSettingsLoaded`: collect the current identifiers, clear
the mapping, then re-run `Init` on the collected identifiers against the
registry. -/
def OnSettingsLoaded (cache : Cache) (registry : Registry) : Cache :=
  Init [] (collectSettingNames cache) registry

/-- `CPVRSettings::OnSettingChanged(setting)`: null handle is a no-op;
otherwise overwrite (or insert) the entry keyed by the setting's identifier
with a clone of the incoming setting. -/
def OnSettingChanged (cache : Cache) (setting : Option CSetting) : Cache :=
  match setting with
  | none => cache
  | some s => mapSet cache s.GetId (s.Clone s.GetId)

/-- `CPVRSettings::GetBoolValue`: the stored boolean when the entry exists
with declared kind `Boolean`, `false` otherwise. -/
def GetBoolValue (cache : Cache) (settingName : String) : Bool :=
  match mapFind cache settingName with
  | some s =>
      match s.value with
      | SettingValue.boolean b => b
      | _ => false
  | none => false

/-- `CPVRSettings::GetIntValue`: the stored integer when the entry exists
with declared kind `Integer`, `-1` otherwise. -/
def GetIntValue (cache : Cache) (settingName : String) : Int :=
  match mapFind cache settingName with
  | some s =>
      match s.value with
      | SettingValue.integer i => i
      | _ => -1
  | none => -1

/-- `CPVRSettings::GetStringValue`: the stored string when the entry exists
with declared kind `String`, `""` otherwise. -/
def GetStringValue (cache : Cache) (settingName : String) : String :=
  match mapFind cache settingName with
  | some s =>
      match s.value with
      | SettingValue.string str => str
      | _ => ""
  | none => ""

/-- The hardcoded minute values of `CPVRSettings::MarginTimeFiller`. -/
def marginTimeValues : List Int :=
  [0, 1, 3, 5, 10, 15, 20, 30, 60, 90, 120, 180]

/-- `CPVRSettings::MarginTimeFiller(setting, list, current, data)`: clear the
list, then push one `(label, minutes)` pair per hardcoded minute value, the
label being the localized `%i min` template (string 14044) formatted with the
minute value.  The localization-and-format step
`StringUtils::Format(g_localizeStrings.Get(14044), v)` is external to this
file and passed in as `localizedFormat`.  Returns the final `(list, current)`
pair. -/
def MarginTimeFiller (localizedFormat : Int → String)
    (list : List (String × Int)) (current : Int) :
    List (String × Int) × Int :=
  let cleared : List (String × Int) := []
  (marginTimeValues.foldl
    (fun acc iValue => acc ++ [(localizedFormat iValue, iValue)]) cleared,
   current)

/-- Modelled from the spec: the identifier constant
`CSettings::SETTING_PVRMANAGER_USEBACKENDCHANNELNUMBERS` (the
"use-backend-channel-numbers" setting), declared in `settings/Settings.h`,
which is not part of the sources. -/
def SETTING_PVRMANAGER_USEBACKENDCHANNELNUMBERS : String :=
  "pvrmanager.usebackendchannelnumbers"

/-- Modelled from the spec: the identifier constant
`CSettings::SETTING_PVRMANAGER_CLIENTPRIORITIES` (the "client-priorities"
setting), declared in `settings/Settings.h`, which is not part of the
sources. -/
def SETTING_PVRMANAGER_CLIENTPRIORITIES : String :=
  "pvrmanager.clientpriorities"

/-- `CPVRSettings::IsSettingVisible(condition, value, setting, data)`: false
on a null handle; for the use-backend-channel-numbers identifier, visible iff
exactly one PVR client is enabled; for the client-priorities identifier,
visible iff more than one PVR client is enabled; any other identifier is
always visible.  The external query
`CServiceBroker::GetPVRManager().Clients()->EnabledClientAmount()` is passed
in as `enabledClientAmount`. -/
def IsSettingVisible (condition : String) (value : String)
    (setting : Option CSetting) (data : Unit)
    (enabledClientAmount : Int) : Bool :=
  match setting with
  | none => false
  | some s =>
      let settingId := s.GetId
      if settingId = SETTING_PVRMANAGER_USEBACKENDCHANNELNUMBERS then
        enabledClientAmount = 1
      else if settingId = SETTING_PVRMANAGER_CLIENTPRIORITIES then
        1 < enabledClientAmount
      else
        true

/-- An externally triggered cache event: a single-setting-changed notification
(with a possibly null handle) or a bulk-reload notification (against the
registry state at reload time). -/
inductive Event where
  | changed : Option CSetting → Event
  | loaded : Registry → Event

/-- One notification step of the cache. -/
def step (cache : Cache) (e : Event) : Cache :=
  match e with
  | Event.changed s => OnSettingChanged cache s
  | Event.loaded registry => OnSettingsLoaded cache registry

/-- The cache after a sequence of notifications. -/
def run (cache : Cache) (events : List Event) : Cache :=
  events.foldl step cache

/-- The registry associates the fixed declared kind `kindOf k` with each
identifier `k`. -/
def RegistryRespects (kindOf : String → SettingType) (registry : Registry) :
    Prop :=
  ∀ k s, registry k = some s → s.GetType = kindOf k

/-- Every entry of the cache holds a snapshot of the declared kind fixed for
its key. -/
def CacheRespects (kindOf : String → SettingType) (cache : Cache) : Prop :=
  ∀ k s, mapFind cache k = some s → s.GetType = kindOf k

/-- An event only delivers settings of the declared kind fixed for their
identifier. -/
def EventRespects (kindOf : String → SettingType) : Event → Prop
  | Event.changed none => True
  | Event.changed (some s) => s.GetType = kindOf s.GetId
  | Event.loaded registry => RegistryRespects kindOf registry

/-! ## Concrete sample data

A small concrete registry/cache used to instantiate the theorems below on
explicit inputs. -/

/-- A sample boolean setting. -/
def sampleBool : CSetting := ⟨"pvr.bool", SettingValue.boolean true⟩

/-- A sample integer setting. -/
def sampleInt : CSetting := ⟨"pvr.int", SettingValue.integer 7⟩

/-- A sample string setting. -/
def sampleStr : CSetting := ⟨"pvr.str", SettingValue.string "x"⟩

/-- A sample cache holding one setting of each kind. -/
def sampleCache : Cache :=
  [("pvr.bool", sampleBool), ("pvr.int", sampleInt), ("pvr.str", sampleStr)]

/-- A sample registry agreeing with `sampleCache`. -/
def sampleRegistry : Registry := fun k => mapFind sampleCache k

/-- The declared-kind assignment of `sampleRegistry`. -/
def sampleKindOf : String → SettingType := fun k =>
  if k = "pvr.bool" then SettingType.Boolean
  else if k = "pvr.int" then SettingType.Integer
  else if k = "pvr.str" then SettingType.String
  else SettingType.Boolean

/-! ## Map lemmas -/

theorem mapFind_mapSet_self (cache : Cache) (key : String) (v : CSetting) :
    mapFind (mapSet cache key v) key = some v := by
  induction cache with
  | nil => simp [mapSet, mapFind]
  | cons p rest ih =>
      obtain ⟨k, w⟩ := p
      by_cases hk : k = key
      · simp [mapSet, mapFind, hk]
      · simp [mapSet, mapFind, hk, ih]

theorem mapFind_mapSet_ne (cache : Cache) (key key' : String) (v : CSetting)
    (h : key' ≠ key) :
    mapFind (mapSet cache key v) key' = mapFind cache key' := by
  induction cache with
  | nil => simp [mapSet, mapFind, Ne.symm h]
  | cons p rest ih =>
      obtain ⟨k, w⟩ := p
      by_cases hk : k = key
      · subst hk
        simp [mapSet, mapFind, Ne.symm h]
      · simp [mapSet, mapFind, hk, ih]

theorem mapFind_mapInsert_self (cache : Cache) (key : String) (v : CSetting) :
    mapFind (mapInsert cache key v) key = some ((mapFind cache key).getD v) := by
  induction cache with
  | nil => simp [mapInsert, mapFind]
  | cons p rest ih =>
      obtain ⟨k, w⟩ := p
      by_cases hk : k = key
      · simp [mapInsert, mapFind, hk]
      · simp [mapInsert, mapFind, hk, ih]

theorem mapFind_mapInsert_ne (cache : Cache) (key key' : String) (v : CSetting)
    (h : key' ≠ key) :
    mapFind (mapInsert cache key v) key' = mapFind cache key' := by
  induction cache with
  | nil => simp [mapInsert, mapFind, Ne.symm h]
  | cons p rest ih =>
      obtain ⟨k, w⟩ := p
      by_cases hk : k = key
      · subst hk
        simp [mapInsert, mapFind, Ne.symm h]
      · simp [mapInsert, mapFind, hk, ih]

theorem collectSettingNames_cons (k : String) (w : CSetting) (rest : Cache) :
    collectSettingNames ((k, w) :: rest) = k :: collectSettingNames rest :=
  rfl

theorem mem_collectSettingNames_iff (cache : Cache) (key : String) :
    key ∈ collectSettingNames cache ↔ (mapFind cache key).isSome := by
  induction cache with
  | nil => simp [collectSettingNames, mapFind]
  | cons p rest ih =>
      obtain ⟨k, w⟩ := p
      rw [collectSettingNames_cons]
      by_cases hk : k = key
      · simp [mapFind, hk]
      · simp [mapFind, hk, Ne.symm hk, ih, List.mem_cons]

theorem mapFind_eq_some_mem (cache : Cache) (key : String) (v : CSetting)
    (h : mapFind cache key = some v) : (key, v) ∈ cache := by
  induction cache with
  | nil => simp [mapFind] at h
  | cons p rest ih =>
      obtain ⟨k, w⟩ := p
      by_cases hk : k = key
      · subst hk
        simp [mapFind] at h
        simp [h]
      · simp [mapFind, hk] at h
        simp [ih h]

/-! ## Characterization of `Init` -/

theorem InitAux_fst_find (settingNames : List String) (registry : Registry)
    (cache : Cache) (logged : List String) (key : String) :
    mapFind (InitAux settingNames registry cache logged).1 key =
      (mapFind cache key).or
        (if key ∈ settingNames then
          Option.map (fun s => s.Clone key) (registry key) else none) := by
  induction settingNames generalizing cache logged with
  | nil => simp [InitAux, Option.or_none]
  | cons n rest ih =>
      cases hr : registry n with
      | none =>
          by_cases hkey : key = n
          · subst hkey
            simp [InitAux, hr, ih]
          · simp [InitAux, hr, ih, List.mem_cons, hkey]
      | some s =>
          by_cases hkey : key = n
          · subst hkey
            cases hfc : mapFind cache key with
            | none =>
                simp [InitAux, hr, ih, mapFind_mapInsert_self, hfc,
                  List.mem_cons, Option.or]
            | some w =>
                simp [InitAux, hr, ih, mapFind_mapInsert_self, hfc,
                  List.mem_cons, Option.or]
          · simp [InitAux, hr, ih, mapFind_mapInsert_ne cache n key _ hkey,
              List.mem_cons, hkey]

theorem InitAux_snd (settingNames : List String) (registry : Registry)
    (cache : Cache) (logged : List String) :
    (InitAux settingNames registry cache logged).2 =
      logged ++ settingNames.filter (fun n => (registry n).isNone) := by
  induction settingNames generalizing cache logged with
  | nil => simp [InitAux]
  | cons n rest ih =>
      cases hr : registry n with
      | none => simp [InitAux, hr, ih]
      | some s => simp [InitAux, hr, ih]

theorem Init_find (cache : Cache) (settingNames : List String)
    (registry : Registry) (key : String) :
    mapFind (Init cache settingNames registry) key =
      (mapFind cache key).or
        (if key ∈ settingNames then
          Option.map (fun s => s.Clone key) (registry key) else none) :=
  InitAux_fst_find settingNames registry cache [] key

theorem construct_find (settingNames : List String) (registry : Registry)
    (key : String) :
    mapFind (construct settingNames registry) key =
      (if key ∈ settingNames then
        Option.map (fun s => s.Clone key) (registry key) else none) := by
  simpa [construct, mapFind, Option.none_or] using
    Init_find [] settingNames registry key

theorem OnSettingsLoaded_find (cache : Cache) (registry : Registry)
    (key : String) :
    mapFind (OnSettingsLoaded cache registry) key =
      (if key ∈ collectSettingNames cache then
        Option.map (fun s => s.Clone key) (registry key) else none) := by
  simpa [OnSettingsLoaded, construct] using
    construct_find (collectSettingNames cache) registry key

/-! ## Kind-invariant helper lemmas -/

theorem CSetting_GetType_Clone (s : CSetting) (newId : String) :
    (s.Clone newId).GetType = s.GetType := rfl

theorem cacheRespects_of_entries (kindOf : String → SettingType)
    (cache : Cache) (h : ∀ p ∈ cache, (p.2).GetType = kindOf p.1) :
    CacheRespects kindOf cache := by
  intro k s hfind
  exact h (k, s) (mapFind_eq_some_mem cache k s hfind)

theorem init_respects (kindOf : String → SettingType) (settingNames : List String)
    (registry : Registry) (hreg : RegistryRespects kindOf registry) :
    CacheRespects kindOf (construct settingNames registry) := by
  intro k s hfind
  rw [construct_find] at hfind
  by_cases hmem : k ∈ settingNames
  · rw [if_pos hmem] at hfind
    cases hr : registry k with
    | none => rw [hr] at hfind; simp at hfind
    | some s0 =>
        rw [hr] at hfind
        have hfind2 : some (s0.Clone k) = some s := hfind
        obtain rfl := Option.some.inj hfind2
        rw [CSetting_GetType_Clone]
        exact hreg k s0 hr
  · rw [if_neg hmem] at hfind
    simp at hfind

theorem loaded_respects (kindOf : String → SettingType) (cache : Cache)
    (registry : Registry) (hreg : RegistryRespects kindOf registry) :
    CacheRespects kindOf (OnSettingsLoaded cache registry) :=
  init_respects kindOf (collectSettingNames cache) registry hreg

theorem changed_respects (kindOf : String → SettingType) (cache : Cache)
    (s : CSetting) (hc : CacheRespects kindOf cache)
    (hs : s.GetType = kindOf s.GetId) :
    CacheRespects kindOf (OnSettingChanged cache (some s)) := by
  intro k v hfind
  by_cases hk : k = s.GetId
  · subst hk
    rw [OnSettingChanged, mapFind_mapSet_self] at hfind
    obtain rfl := Option.some.inj hfind
    rw [CSetting_GetType_Clone]
    exact hs
  · rw [OnSettingChanged, mapFind_mapSet_ne cache s.GetId k _ hk] at hfind
    exact hc k v hfind

theorem step_respects (kindOf : String → SettingType) (cache : Cache)
    (e : Event) (hc : CacheRespects kindOf cache)
    (he : EventRespects kindOf e) :
    CacheRespects kindOf (step cache e) := by
  cases e with
  | changed s =>
      cases s with
      | none => exact hc
      | some s0 => exact changed_respects kindOf cache s0 hc he
  | loaded registry => exact loaded_respects kindOf cache registry he

theorem run_respects (kindOf : String → SettingType) (events : List Event)
    (cache : Cache) (hc : CacheRespects kindOf cache)
    (hev : ∀ e ∈ events, EventRespects kindOf e) :
    CacheRespects kindOf (run cache events) := by
  induction events generalizing cache with
  | nil => exact hc
  | cons e rest ih =>
      exact ih (step cache e)
        (step_respects kindOf cache e hc (hev e (List.mem_cons_self e rest)))
        (fun e2 he2 => hev e2 (List.mem_cons_of_mem e he2))

/-! ## Reload-narrowing helper lemmas -/

theorem OnSettingsLoaded_none (cache : Cache) (registry : Registry)
    (key : String) (h : mapFind cache key = none) :
    mapFind (OnSettingsLoaded cache registry) key = none := by
  rw [OnSettingsLoaded_find, if_neg]
  intro hmem
  have hs := (mem_collectSettingNames_iff cache key).1 hmem
  rw [h] at hs
  simp at hs

theorem foldl_OnSettingsLoaded_none (registries : List Registry)
    (cache : Cache) (key : String) (h : mapFind cache key = none) :
    mapFind (registries.foldl OnSettingsLoaded cache) key = none := by
  induction registries generalizing cache with
  | nil => exact h
  | cons registry rest ih =>
      exact ih (OnSettingsLoaded cache registry)
        (OnSettingsLoaded_none cache registry key h)

/-! ## Claim theorems -/

/-- C1: for every identifier, each typed accessor returns the stored
snapshot's value when an entry of the matching declared kind exists, and
otherwise (entry absent, or present with a non-matching kind) returns the
type-specific default (`false`, `-1`, `""`) — never the stored value of a
wrong-kind entry. -/
theorem typedAccessors_spec (cache : Cache) (settingName : String) :
    (∀ st b, mapFind cache settingName = some st →
      st.value = SettingValue.boolean b → GetBoolValue cache settingName = b)
    ∧ (∀ st i, mapFind cache settingName = some st →
      st.value = SettingValue.integer i → GetIntValue cache settingName = i)
    ∧ (∀ st str, mapFind cache settingName = some st →
      st.value = SettingValue.string str →
      GetStringValue cache settingName = str)
    ∧ (mapFind cache settingName = none →
      GetBoolValue cache settingName = false
      ∧ GetIntValue cache settingName = -1
      ∧ GetStringValue cache settingName = "")
    ∧ (∀ st, mapFind cache settingName = some st →
      st.GetType ≠ SettingType.Boolean →
      GetBoolValue cache settingName = false)
    ∧ (∀ st, mapFind cache settingName = some st →
      st.GetType ≠ SettingType.Integer → GetIntValue cache settingName = -1)
    ∧ (∀ st, mapFind cache settingName = some st →
      st.GetType ≠ SettingType.String →
      GetStringValue cache settingName = "") := by
  refine ⟨?_, ?_, ?_, ?_, ?_, ?_, ?_⟩
  · intro st b hfind hval
    simp [GetBoolValue, hfind, hval]
  · intro st i hfind hval
    simp [GetIntValue, hfind, hval]
  · intro st str hfind hval
    simp [GetStringValue, hfind, hval]
  · intro hfind
    exact ⟨by simp [GetBoolValue, hfind], by simp [GetIntValue, hfind],
      by simp [GetStringValue, hfind]⟩
  · intro st hfind hty
    cases hv : st.value with
    | boolean b => exact absurd (by simp [CSetting.GetType, hv]) hty
    | integer i => simp [GetBoolValue, hfind, hv]
    | string str => simp [GetBoolValue, hfind, hv]
  · intro st hfind hty
    cases hv : st.value with
    | boolean b => simp [GetIntValue, hfind, hv]
    | integer i => exact absurd (by simp [CSetting.GetType, hv]) hty
    | string str => simp [GetIntValue, hfind, hv]
  · intro st hfind hty
    cases hv : st.value with
    | boolean b => simp [GetStringValue, hfind, hv]
    | integer i => simp [GetStringValue, hfind, hv]
    | string str => exact absurd (by simp [CSetting.GetType, hv]) hty

/-- Witness for C1: the accessors evaluated on `sampleCache`, via
`typedAccessors_spec` at concrete inputs. -/
theorem typedAccessors_spec_witness :
    GetBoolValue sampleCache "pvr.bool" = true
    ∧ GetIntValue sampleCache "pvr.int" = 7
    ∧ GetStringValue sampleCache "pvr.str" = "x"
    ∧ GetBoolValue sampleCache "absent.key" = false
    ∧ GetIntValue sampleCache "pvr.bool" = -1
    ∧ GetStringValue sampleCache "pvr.int" = "" := by
  refine ⟨?_, ?_, ?_, ?_, ?_, ?_⟩
  · exact (typedAccessors_spec sampleCache "pvr.bool").1 sampleBool true
      (by decide) (by decide)
  · exact (typedAccessors_spec sampleCache "pvr.int").2.1 sampleInt 7
      (by decide) (by decide)
  · exact (typedAccessors_spec sampleCache "pvr.str").2.2.1 sampleStr "x"
      (by decide) (by decide)
  · exact ((typedAccessors_spec sampleCache "absent.key").2.2.2.1
      (by decide)).1
  · exact (typedAccessors_spec sampleCache "pvr.bool").2.2.2.2.2.1 sampleBool
      (by decide) (by decide)
  · exact (typedAccessors_spec sampleCache "pvr.int").2.2.2.2.2.2 sampleInt
      (by decide) (by decide)

/-- C2: `OnSettingChanged` with a null handle leaves the mapping unchanged;
with a non-null handle it replaces (or inserts) exactly the entry keyed by the
setting's identifier with a clone of the incoming setting, and leaves every
entry under any other key unchanged. -/
theorem onSettingChanged_spec (cache : Cache) (st : CSetting) (key : String) :
    OnSettingChanged cache none = cache
    ∧ mapFind (OnSettingChanged cache (some st)) st.GetId
        = some (st.Clone st.GetId)
    ∧ (key ≠ st.GetId →
        mapFind (OnSettingChanged cache (some st)) key = mapFind cache key) := by
  refine ⟨rfl, ?_, ?_⟩
  · exact mapFind_mapSet_self cache st.GetId (st.Clone st.GetId)
  · intro hne
    exact mapFind_mapSet_ne cache st.GetId key (st.Clone st.GetId) hne

/-- Witness for C2: a change notification for an identifier outside the
requested set inserts that entry and leaves `sampleCache`'s entries alone,
via `onSettingChanged_spec` at concrete inputs. -/
theorem onSettingChanged_spec_witness :
    OnSettingChanged sampleCache none = sampleCache
    ∧ mapFind (OnSettingChanged sampleCache
        (some ⟨"unrequested.id", SettingValue.integer 5⟩)) "unrequested.id"
        = some ⟨"unrequested.id", SettingValue.integer 5⟩
    ∧ mapFind (OnSettingChanged sampleCache
        (some ⟨"unrequested.id", SettingValue.integer 5⟩)) "pvr.bool"
        = mapFind sampleCache "pvr.bool" := by
  refine ⟨?_, ?_, ?_⟩
  · exact (onSettingChanged_spec sampleCache sampleBool "pvr.bool").1
  · exact (onSettingChanged_spec sampleCache
      ⟨"unrequested.id", SettingValue.integer 5⟩ "pvr.bool").2.1
  · exact (onSettingChanged_spec sampleCache
      ⟨"unrequested.id", SettingValue.integer 5⟩ "pvr.bool").2.2 (by decide)

/-- C3: when every cache entry is still the clone of the registry's current
setting under its key (no external mutation since the entries were cloned),
a bulk reload reproduces the mapping that existed immediately before it:
the lookup of every identifier is unchanged. -/
theorem onSettingsLoaded_reproduces (cache : Cache) (registry : Registry)
    (h : ∀ p ∈ cache,
      Option.map (fun s => s.Clone p.1) (registry p.1) = some p.2)
    (key : String) :
    mapFind (OnSettingsLoaded cache registry) key = mapFind cache key := by
  rw [OnSettingsLoaded_find]
  by_cases hmem : key ∈ collectSettingNames cache
  · rw [if_pos hmem]
    have hsome : (mapFind cache key).isSome :=
      (mem_collectSettingNames_iff cache key).1 hmem
    obtain ⟨v, hv⟩ := Option.isSome_iff_exists.1 hsome
    rw [hv]
    exact h (key, v) (mapFind_eq_some_mem cache key v hv)
  · rw [if_neg hmem]
    cases hfc : mapFind cache key with
    | none => rfl
    | some v =>
        exact absurd ((mem_collectSettingNames_iff cache key).2
          (by rw [hfc]; rfl)) hmem

/-- Witness for C3: a reload of `sampleCache` against the agreeing
`sampleRegistry` leaves every sample lookup unchanged, via
`onSettingsLoaded_reproduces` at concrete inputs. -/
theorem onSettingsLoaded_reproduces_witness :
    mapFind (OnSettingsLoaded sampleCache sampleRegistry) "pvr.int"
      = mapFind sampleCache "pvr.int" :=
  onSettingsLoaded_reproduces sampleCache sampleRegistry (by decide) "pvr.int"

/-- C4: `IsSettingVisible` is false on a null handle; on the
use-backend-channel-numbers identifier it is true iff the enabled-client
count equals 1; on the client-priorities identifier it is true iff that
count exceeds 1; on any other identifier it is true. -/
theorem isSettingVisible_spec (condition value : String) (data : Unit)
    (enabledClientAmount : Int) (st : CSetting) :
    IsSettingVisible condition value none data enabledClientAmount = false
    ∧ (st.GetId = SETTING_PVRMANAGER_USEBACKENDCHANNELNUMBERS →
        (IsSettingVisible condition value (some st) data enabledClientAmount
            = true ↔ enabledClientAmount = 1))
    ∧ (st.GetId = SETTING_PVRMANAGER_CLIENTPRIORITIES →
        (IsSettingVisible condition value (some st) data enabledClientAmount
            = true ↔ 1 < enabledClientAmount))
    ∧ (st.GetId ≠ SETTING_PVRMANAGER_USEBACKENDCHANNELNUMBERS →
        st.GetId ≠ SETTING_PVRMANAGER_CLIENTPRIORITIES →
        IsSettingVisible condition value (some st) data enabledClientAmount
          = true) := by
  refine ⟨rfl, ?_, ?_, ?_⟩
  · intro hid
    simp [IsSettingVisible, hid]
  · intro hid
    have hne : SETTING_PVRMANAGER_CLIENTPRIORITIES
        ≠ SETTING_PVRMANAGER_USEBACKENDCHANNELNUMBERS := by decide
    simp [IsSettingVisible, hid, hne]
  · intro h1 h2
    simp [IsSettingVisible, h1, h2]

/-- Witness for C4: the visibility predicate evaluated on concrete handles
and client counts, via `isSettingVisible_spec`. -/
theorem isSettingVisible_spec_witness :
    IsSettingVisible "c" "v" none () 2 = false
    ∧ IsSettingVisible "c" "v"
        (some ⟨SETTING_PVRMANAGER_USEBACKENDCHANNELNUMBERS,
          SettingValue.boolean true⟩) () 1 = true
    ∧ IsSettingVisible "c" "v"
        (some ⟨SETTING_PVRMANAGER_CLIENTPRIORITIES,
          SettingValue.integer 0⟩) () 2 = true
    ∧ IsSettingVisible "c" "v"
        (some ⟨"pvr.other", SettingValue.string "y"⟩) () 0 = true := by
  refine ⟨?_, ?_, ?_, ?_⟩
  · exact (isSettingVisible_spec "c" "v" () 2 sampleBool).1
  · exact ((isSettingVisible_spec "c" "v" () 1
      ⟨SETTING_PVRMANAGER_USEBACKENDCHANNELNUMBERS,
        SettingValue.boolean true⟩).2.1 rfl).mpr rfl
  · exact ((isSettingVisible_spec "c" "v" () 2
      ⟨SETTING_PVRMANAGER_CLIENTPRIORITIES,
        SettingValue.integer 0⟩).2.2.1 rfl).mpr (by decide)
  · exact (isSettingVisible_spec "c" "v" () 0
      ⟨"pvr.other", SettingValue.string "y"⟩).2.2.2 (by decide) (by decide)

/-- C5: for every input list and every other argument, `MarginTimeFiller`
clears the list and leaves exactly 12 `(label, minutes)` pairs in the order
0, 1, 3, 5, 10, 15, 20, 30, 60, 90, 120, 180, each label being the localized
template formatted with the minute value; the current-value output parameter
is not modified. -/
theorem marginTimeFiller_spec (localizedFormat : Int → String)
    (list : List (String × Int)) (current : Int) :
    (MarginTimeFiller localizedFormat list current).1
        = marginTimeValues.map (fun v => (localizedFormat v, v))
    ∧ (MarginTimeFiller localizedFormat list current).1
        = [(localizedFormat 0, 0), (localizedFormat 1, 1),
           (localizedFormat 3, 3), (localizedFormat 5, 5),
           (localizedFormat 10, 10), (localizedFormat 15, 15),
           (localizedFormat 20, 20), (localizedFormat 30, 30),
           (localizedFormat 60, 60), (localizedFormat 90, 90),
           (localizedFormat 120, 120), (localizedFormat 180, 180)]
    ∧ (MarginTimeFiller localizedFormat list current).1.length = 12
    ∧ (MarginTimeFiller localizedFormat list current).2 = current :=
  ⟨rfl, rfl, rfl, rfl⟩

/-- C6: after construction over an identifier set, every identifier of the
set whose registry lookup succeeds has a cache entry holding a clone of the
setting found; every identifier whose lookup fails is logged and has no
cache entry. -/
theorem construct_spec (settingNames : List String) (registry : Registry)
    (key : String) (h : key ∈ settingNames) :
    mapFind (construct settingNames registry) key
        = Option.map (fun s => s.Clone key) (registry key)
    ∧ (registry key = none →
        mapFind (construct settingNames registry) key = none
        ∧ key ∈ initLogged settingNames registry) := by
  constructor
  · rw [construct_find, if_pos h]
  · intro hr
    constructor
    · rw [construct_find, if_pos h, hr]
      rfl
    · rw [initLogged, InitAux_snd]
      simp [List.mem_filter, h, hr]

/-- Witness for C6: constructing over one known and one unknown identifier
against `sampleRegistry`, via `construct_spec` at concrete inputs. -/
theorem construct_spec_witness :
    mapFind (construct ["pvr.bool", "missing.setting"] sampleRegistry)
        "pvr.bool" = some sampleBool
    ∧ mapFind (construct ["pvr.bool", "missing.setting"] sampleRegistry)
        "missing.setting" = none
    ∧ "missing.setting"
        ∈ initLogged ["pvr.bool", "missing.setting"] sampleRegistry := by
  refine ⟨?_, ?_, ?_⟩
  · have h := (construct_spec ["pvr.bool", "missing.setting"] sampleRegistry
      "pvr.bool" (by decide)).1
    rw [h]
    decide
  · exact ((construct_spec ["pvr.bool", "missing.setting"] sampleRegistry
      "missing.setting" (by decide)).2 (by decide)).1
  · exact ((construct_spec ["pvr.bool", "missing.setting"] sampleRegistry
      "missing.setting" (by decide)).2 (by decide)).2

/-- C7 counterexample: the set of identifiers the bulk-reload handler looks
up is `collectSettingNames` of the current cache, which differs from the
identifier set requested at construction: a requested identifier whose
lookup failed is absent from it, and a change-notified unrequested
identifier is present in it. -/
theorem onSettingsLoaded_requested_set_counterexample :
    collectSettingNames (construct ["missing.setting"] sampleRegistry) = []
    ∧ ["missing.setting"] ≠ ([] : List String)
    ∧ collectSettingNames
        (OnSettingChanged (construct ["missing.setting"] sampleRegistry)
          (some ⟨"unrequested.id", SettingValue.integer 5⟩))
        = ["unrequested.id"] := by
  decide

/-- C7 amended: on every bulk-reload notification the old entries are
cleared and the cache is re-initialized from the cache's current key set
(which need not equal the identifier set requested at construction): the
lookup of any key after the reload is the re-cloned registry setting when
the key was present before, and nothing otherwise. -/
theorem onSettingsLoaded_uses_current_keys (cache : Cache)
    (registry : Registry) (key : String) :
    mapFind (OnSettingsLoaded cache registry) key =
      if key ∈ collectSettingNames cache then
        Option.map (fun s => s.Clone key) (registry key)
      else none :=
  OnSettingsLoaded_find cache registry key

/-- C8: when the registry assigns each identifier a fixed declared kind and
every event (registry state at construction and at each bulk reload, every
delivered setting) respects that assignment, the cache invariant "each key
maps to a snapshot of its fixed declared kind" holds after construction and
after any sequence of change and reload notifications. -/
theorem kindInvariant_lifetime (kindOf : String → SettingType)
    (settingNames : List String) (registry : Registry) (events : List Event)
    (hreg : RegistryRespects kindOf registry)
    (hev : ∀ e ∈ events, EventRespects kindOf e) :
    CacheRespects kindOf (run (construct settingNames registry) events) :=
  run_respects kindOf events (construct settingNames registry)
    (init_respects kindOf settingNames registry hreg) hev

/-- Witness for C8: the kind invariant on a concrete run (construction, a
change notification, a bulk reload) over `sampleRegistry`, via
`kindInvariant_lifetime`. -/
theorem kindInvariant_lifetime_witness :
    CacheRespects sampleKindOf
      (run (construct ["pvr.bool", "pvr.int"] sampleRegistry)
        [Event.changed (some sampleInt), Event.changed none,
         Event.loaded sampleRegistry]) := by
  have hreg : RegistryRespects sampleKindOf sampleRegistry :=
    cacheRespects_of_entries sampleKindOf sampleCache (by decide)
  refine kindInvariant_lifetime sampleKindOf ["pvr.bool", "pvr.int"]
    sampleRegistry _ hreg ?_
  intro e he
  simp only [List.mem_cons, List.not_mem_nil, or_false] at he
  rcases he with rfl | rfl | rfl
  · exact (by decide : sampleInt.GetType = sampleKindOf sampleInt.GetId)
  · exact trivial
  · exact hreg

/-- C9: the result of `IsSettingVisible` is independent of its condition
string, value string and context-data arguments: two calls with the same
handle and the same enabled-client count return equal booleans. -/
theorem isSettingVisible_independent (c1 c2 v1 v2 : String) (d1 d2 : Unit)
    (setting : Option CSetting) (enabledClientAmount : Int) :
    IsSettingVisible c1 v1 setting d1 enabledClientAmount
      = IsSettingVisible c2 v2 setting d2 enabledClientAmount := rfl

/-- C10: a bulk reload never widens the cache: a key present after
`OnSettingsLoaded` was present before it, and a key absent from the cache is
still absent after any number of bulk reloads against any registry
states. -/
theorem onSettingsLoaded_never_widens (cache : Cache) (registry : Registry)
    (registries : List Registry) (key : String) :
    ((mapFind (OnSettingsLoaded cache registry) key).isSome →
      (mapFind cache key).isSome)
    ∧ (mapFind cache key = none →
      mapFind (registries.foldl OnSettingsLoaded cache) key = none) := by
  constructor
  · intro hs
    by_contra hn
    rw [Option.not_isSome_iff_eq_none] at hn
    rw [OnSettingsLoaded_none cache registry key hn] at hs
    simp at hs
  · exact foldl_OnSettingsLoaded_none registries cache key

/-- Witness for C10: on `sampleCache`, a surviving key was present before
the reload and an absent key stays absent across two reloads, via
`onSettingsLoaded_never_widens` at concrete inputs. -/
theorem onSettingsLoaded_never_widens_witness :
    (mapFind sampleCache "pvr.bool").isSome
    ∧ mapFind
        ([sampleRegistry, sampleRegistry].foldl OnSettingsLoaded sampleCache)
        "absent.key" = none := by
  constructor
  · exact (onSettingsLoaded_never_widens sampleCache sampleRegistry []
      "pvr.bool").1 (by decide)
  · exact (onSettingsLoaded_never_widens sampleCache sampleRegistry
      [sampleRegistry, sampleRegistry] "absent.key").2 (by decide)

end PVRSettings
